import Mathlib

/-!
Verification development for the transcription repository.

The repository is a set of batch scripts (meeting.py, gemini.py,
transcribe.py, compare.py, split.py) that upload local media files to a
remote transcription service, poll for readiness, generate text, persist
transcript files and clean up the uploaded remote resource.

The embedding below is a shallow model of the control flow of those
scripts.  External effects (remote calls, file writes) are recorded in an
explicit event trace; the outcome of each external call is supplied by an
oracle argument, so every path of the source code corresponds to a choice
of oracle values.  Wall-clock sleeps are not part of the trace (they have
no observable effect on the filesystem or the remote trace); the smart
wait computation of gemini.py and the retry delays of transcribe.py are
modelled as explicit data where a claim talks about them.
-/

/-- One remote operation against the transcription service, as performed by
the scripts: upload_file, get_file polling, generate_content on an uploaded
handle, generate_content on a plain summary prompt, delete_file. -/
inductive RemoteCall where
  | upload (path : String)
  | poll (handle : String)
  | generate (handle : String)
  | genSummary (prompt : String)
  | delete (handle : String)
deriving DecidableEq

/-- An observable effect: a remote call or a local file write. -/
inductive Event where
  | call (c : RemoteCall)
  | fsWrite (path content : String)
deriving DecidableEq

/-- The filesystem as an association list from paths to contents; a later
write shadows an earlier one (list is newest-first). -/
abbrev Fs : Type := List (String × String)

/-- Reading a path: first (newest) entry wins. -/
def Fs.lookup (fs : Fs) (p : String) : Option String :=
  (List.find? (fun e => e.1 == p) fs).map Prod.snd

/-- Writing a path (open(path, "w").write(content)). -/
def Fs.write (fs : Fs) (p c : String) : Fs := (p, c) :: fs

/-- Replaying a trace of events over the filesystem: remote calls leave the
local filesystem unchanged, writes update it. -/
def applyEvents : Fs → List Event → Fs
  | fs, [] => fs
  | fs, Event.call _ :: es => applyEvents fs es
  | fs, Event.fsWrite p c :: es => applyEvents (Fs.write fs p c) es

/-- The remote calls of a trace, in order. -/
def callsIn (es : List Event) : List RemoteCall :=
  es.filterMap (fun e => match e with
    | Event.call c => some c
    | Event.fsWrite _ _ => none)

/-- Recognizer for delete_file calls. -/
def isDelete : RemoteCall → Bool
  | RemoteCall.delete _ => true
  | _ => false

/-- Recognizer for upload_file calls. -/
def isUpload : RemoteCall → Bool
  | RemoteCall.upload _ => true
  | _ => false

/-- Recognizer for the summary generate_content call. -/
def isGenSummaryCall : RemoteCall → Bool
  | RemoteCall.genSummary _ => true
  | _ => false

namespace Meeting

/-!
Model of meeting.py: the chunked transcription-and-summarization pipeline.
Durations are natural numbers of milliseconds (pydub measures len(audio)
in ms; the ffprobe seconds and the pydub length are modelled as the one
duration of the item).
-/

/-- CHUNK_DURATION_MINUTES * 60 seconds, in milliseconds. -/
def chunkMs : Nat := 30 * 60 * 1000

/-- A media file in audio_in: its path, its stem, and the result of the
ffprobe duration probe (none when ffprobe fails). -/
structure MediaItem where
  path : String
  stem : String
  probe : Option Nat
deriving DecidableEq

/-- Outcome of one generate_content call in meeting.py: text, an ordinary
exception, or google.api_core.exceptions.ResourceExhausted (quota). -/
inductive GenOutcome where
  | ok (text : String)
  | err
  | quota
deriving DecidableEq

/-- Environment choices for one transcribe_chunk call: whether upload_file
succeeds (and with which remote handle), how many PROCESSING polls happen,
whether the service ends in the FAILED state, and what generate_content
does. -/
structure ChunkOracle where
  upload : Option String
  polls : Nat
  failedState : Bool
  gen : GenOutcome
deriving DecidableEq

/-- The text produced by transcribe_chunk: some text on success, none when
the function returns None (its except-Exception handler caught the upload
error, the FAILED state ValueError, an ordinary generation error, or a
ResourceExhausted quota error). -/
def chunkText (o : ChunkOracle) : Option String :=
  match o.upload with
  | none => none
  | some _ =>
    if o.failedState then none
    else
      match o.gen with
      | GenOutcome.ok t => some t
      | GenOutcome.err => none
      | GenOutcome.quota => none

/-- meeting.py transcribe_chunk: upload, poll while PROCESSING, raise on
FAILED, generate, and in the finally block delete the uploaded resource
whenever the upload handle exists.  Returns the optional text and the
remote calls performed, in order. -/
def transcribeChunk (path : String) (o : ChunkOracle) :
    Option String × List RemoteCall :=
  match o.upload with
  | none => (none, [RemoteCall.upload path])
  | some h =>
    let pre := RemoteCall.upload path :: List.replicate o.polls (RemoteCall.poll h)
    if o.failedState then
      (none, pre ++ [RemoteCall.delete h])
    else
      match o.gen with
      | GenOutcome.ok t => (some t, pre ++ [RemoteCall.generate h, RemoteCall.delete h])
      | GenOutcome.err => (none, pre ++ [RemoteCall.generate h, RemoteCall.delete h])
      | GenOutcome.quota => (none, pre ++ [RemoteCall.generate h, RemoteCall.delete h])

/-- Python truthiness filter used by the loop: a part is kept only when it
is neither None nor the empty string. -/
def truthy : Option String → Option String
  | none => none
  | some t => if t = "" then none else some t

/-- ceil(durMs / chunkLenMs) as computed by math.ceil on the exact ratio. -/
def numChunks (durMs chunkLenMs : Nat) : Nat :=
  (durMs + chunkLenMs - 1) / chunkLenMs

/-- Path of the i-th chunk file produced by split_audio
(temp_chunks/{stem}_chunk{i+1}.mp3). -/
def chunkPath (stem : String) (i : Nat) : String :=
  "temp_chunks/" ++ stem ++ "_chunk" ++ toString (i + 1) ++ ".mp3"

/-- meeting.py split_audio: on success, ceil(len/chunk) chunk files named by
index; on an AudioSegment failure the except handler returns []. -/
def splitAudio (stem : String) (chunkLenMs durMs : Nat) (ok : Bool) : List String :=
  if ok then (List.range (numChunks durMs chunkLenMs)).map (chunkPath stem) else []

/-- The time range (start ms, end ms) each chunk of split_audio covers:
chunk i is audio[i*c : (i+1)*c], and Python slicing clamps the end to the
source duration. -/
def chunkIntervals (durMs chunkLenMs : Nat) : List (Nat × Nat) :=
  (List.range (numChunks durMs chunkLenMs)).map
    (fun i => (i * chunkLenMs, min ((i + 1) * chunkLenMs) durMs))

/-- The split decision of main: physically split only when the probed
duration exceeds CHUNK_DURATION_MINUTES * 60; otherwise the original file
is the single chunk. -/
def chunkPathsOf (item : MediaItem) (durMs : Nat) (splitOk : Bool) : List String :=
  if chunkMs < durMs then splitAudio item.stem chunkMs durMs splitOk
  else [item.path]

/-- Environment choices for one media item: whether split_audio succeeds,
the per-chunk oracles (by chunk index), and the summary call outcome. -/
structure ItemOracle where
  splitOk : Bool
  chunk : Nat → ChunkOracle
  summary : GenOutcome

/-- The enumerate loop over chunk paths: chunk at position j of the list
uses oracle index i0 + j. -/
def chunkResults (co : Nat → ChunkOracle) :
    Nat → List String → List (Option String × List RemoteCall)
  | _, [] => []
  | i, p :: ps => transcribeChunk p (co i) :: chunkResults co (i + 1) ps

/-- full_transcript_parts: the truthy chunk results, in chunk order. -/
def partsOf (rs : List (Option String × List RemoteCall)) : List String :=
  rs.filterMap (fun r => truthy r.1)

/-- The texts of the chunks whose transcription returned text (successes),
in chunk order, before the truthiness filter. -/
def successTexts (rs : List (Option String × List RemoteCall)) : List String :=
  rs.filterMap Prod.fst

/-- transcripts/{stem}_transcript.txt -/
def transcriptPath (stem : String) : String :=
  "transcripts/" ++ stem ++ "_transcript.txt"

/-- transcripts/{stem}_summary.txt -/
def summaryPath (stem : String) : String :=
  "transcripts/" ++ stem ++ "_summary.txt"

/-- The fixed instructional template of summarize_transcript, with the
transcript interpolated at the end. -/
def summaryPrompt (transcript : String) : String :=
  "You are a professional meeting assistant. Based on the following meeting transcript, provide a concise summary.\n"
  ++ "Your output must be in three distinct sections:\n"
  ++ "1.  **Summary:** A brief overview of the purpose and key discussions.\n"
  ++ "2.  **Key Decisions:** A bulleted list of all decisions made.\n"
  ++ "3.  **Action Items:** A bulleted list of all action items, including who is assigned to each if mentioned.\n"
  ++ "\nTranscript:\n---\n" ++ transcript

/-- The string summarize_transcript returns: the generated text, or the
placeholder when generate_content raised (any exception, quota included,
is caught by its except handler). -/
def summaryText : GenOutcome → String
  | GenOutcome.ok s => s
  | GenOutcome.err => "Summary could not be generated."
  | GenOutcome.quota => "Summary could not be generated."

/-- meeting.py summarize_transcript: exactly one generate_content call on
the fixed prompt; the except handler turns any failure into a placeholder
string instead of propagating. -/
def summarizeTranscript (transcript : String) (g : GenOutcome) :
    String × List RemoteCall :=
  (summaryText g, [RemoteCall.genSummary (summaryPrompt transcript)])

/-- One iteration of the main loop of meeting.py for one media item, as an
event trace: skip when the transcript file exists, skip when ffprobe
fails, otherwise split, transcribe each chunk in order, and when any
truthy part exists write the joined transcript, call summarize_transcript
and write its result. -/
def processItemEvents (item : MediaItem) (o : ItemOracle) (fs : Fs) : List Event :=
  if (Fs.lookup fs (transcriptPath item.stem)).isSome then []
  else
    match item.probe with
    | none => []
    | some d =>
      let rs := chunkResults o.chunk 0 (chunkPathsOf item d o.splitOk)
      let calls := ((rs.map Prod.snd).flatten).map Event.call
      let parts := partsOf rs
      if parts = [] then calls
      else
        let full := String.intercalate "\n\n" parts
        let summ := summarizeTranscript full o.summary
        calls ++ Event.fsWrite (transcriptPath item.stem) full ::
          (summ.2.map Event.call ++ [Event.fsWrite (summaryPath item.stem) summ.1])

/-- The filesystem after processing one item. -/
def processItemFs (item : MediaItem) (o : ItemOracle) (fs : Fs) : Fs :=
  applyEvents fs (processItemEvents item o fs)

/-- The main loop of meeting.py over all discovered files: every per-item
and per-chunk exception is contained inside the item (transcribe_chunk,
summarize_transcript and split_audio each catch Exception), so the loop
always advances to the next item. -/
def runMain : List (MediaItem × ItemOracle) → Fs → Fs × List Event
  | [], fs => (fs, [])
  | (it, o) :: rest, fs =>
    let es := processItemEvents it o fs
    let fs1 := applyEvents fs es
    let r := runMain rest fs1
    (r.1, es ++ r.2)

end Meeting

namespace Gemini

/-!
Model of gemini.py: the single-call transcription workflow with the smart
wait.  Durations are natural numbers of seconds here (ffprobe seconds).
-/

/-- A media file: path, stem, and ffprobe result in seconds (none when
ffprobe fails). -/
structure GItem where
  path : String
  stem : String
  probe : Option Nat
deriving DecidableEq

/-- Outcome of upload_file: a handle, an ordinary exception, or a
ResourceExhausted quota error. -/
inductive UpOutcome where
  | ok (handle : String)
  | err
  | quota
deriving DecidableEq

/-- Outcome of generate_content: text, a response with no parts (which the
script turns into a ValueError), an ordinary exception, or quota. -/
inductive GOutcome where
  | ok (text : String)
  | emptyParts
  | err
  | quota
deriving DecidableEq

/-- Environment choices for one transcribe_file call. -/
structure Oracle where
  upload : UpOutcome
  polls : Nat
  failedState : Bool
  gen : GOutcome
deriving DecidableEq

/-- transcripts/{stem}.txt -/
def outPath (stem : String) : String := "transcripts/" ++ stem ++ ".txt"

/-- The dynamic smart wait of gemini.py, in seconds: max(30, 10 percent of
the duration) when a (truthy) duration is available, otherwise the fixed
6-minute fallback.  A probed duration of 0 is falsy in Python and also
takes the fallback. -/
def initialWait (probe : Option Nat) : Nat :=
  match probe with
  | some d => if d = 0 then 360 else max 30 (d / 10)
  | none => 360

/-- gemini.py transcribe_file as an event trace plus a flag telling whether
it raised SystemExit.  Skip when the output exists; compute the smart wait
(which never aborts the item); upload; poll; on FAILED raise a ValueError
that the except-Exception handler absorbs; generate; write the transcript;
the finally block deletes the handle whenever the upload succeeded.  Only
ResourceExhausted escapes: its handler re-raises SystemExit. -/
def transcribeFile (it : GItem) (o : Oracle) (fs : Fs) : List Event × Bool :=
  if (Fs.lookup fs (outPath it.stem)).isSome then ([], false)
  else
    match o.upload with
    | UpOutcome.err => ([Event.call (RemoteCall.upload it.path)], false)
    | UpOutcome.quota => ([Event.call (RemoteCall.upload it.path)], true)
    | UpOutcome.ok h =>
      let pre := Event.call (RemoteCall.upload it.path)
        :: List.replicate o.polls (Event.call (RemoteCall.poll h))
      if o.failedState then (pre ++ [Event.call (RemoteCall.delete h)], false)
      else
        match o.gen with
        | GOutcome.ok t =>
          (pre ++ [Event.call (RemoteCall.generate h),
                   Event.fsWrite (outPath it.stem) t,
                   Event.call (RemoteCall.delete h)], false)
        | GOutcome.emptyParts =>
          (pre ++ [Event.call (RemoteCall.generate h), Event.call (RemoteCall.delete h)], false)
        | GOutcome.err =>
          (pre ++ [Event.call (RemoteCall.generate h), Event.call (RemoteCall.delete h)], false)
        | GOutcome.quota =>
          (pre ++ [Event.call (RemoteCall.generate h), Event.call (RemoteCall.delete h)], true)

/-- gemini.py main_workflow: process items in order; a SystemExit raised by
transcribe_file propagates, abandoning every remaining item. -/
def runWorkflow : List (GItem × Oracle) → Fs → Fs × List Event
  | [], fs => (fs, [])
  | (it, o) :: rest, fs =>
    let r := transcribeFile it o fs
    let fs1 := applyEvents fs r.1
    if r.2 then (fs1, r.1)
    else
      let rr := runWorkflow rest fs1
      (rr.1, r.1 ++ rr.2)

end Gemini

namespace Whisper

/-!
Model of transcribe.py (the OpenAI whisper variant), restricted to
process_file from the point where the chunk list exists: the preprocessing
and size-based segmentation are external ffmpeg effects that determine the
chunk list taken here as input.
-/

/-- Outcome of one transcription attempt on one chunk: text, an
httpcore LocalProtocolError (transient transport error), or any other
exception. -/
inductive Att where
  | ok (text : String)
  | transient
  | fatal
deriving DecidableEq

/-- The outcomes the environment would give to the first and (if reached)
second attempt on one chunk. -/
structure ChunkTry where
  a1 : Att
  a2 : Att
deriving DecidableEq

/-- The attempt loop "for attempt in (1, 2)" of process_file on one chunk:
success appends the stripped text and breaks; a LocalProtocolError sleeps
1 second and retries; any other exception gives the chunk up immediately.
Returns (optional text, attempts performed, sleep seconds inserted). -/
def tryChunk : ChunkTry → Option String × Nat × List Nat
  | ⟨Att.ok t, _⟩ => (some t.trim, 1, [])
  | ⟨Att.fatal, _⟩ => (none, 1, [])
  | ⟨Att.transient, Att.ok t⟩ => (some t.trim, 2, [1])
  | ⟨Att.transient, Att.fatal⟩ => (none, 2, [1])
  | ⟨Att.transient, Att.transient⟩ => (none, 2, [1, 1])

/-- The pieces list: texts of the chunks whose attempt loop produced text,
in chunk order; chunks given up on contribute nothing. -/
def pieces (cs : List ChunkTry) : List String :=
  cs.filterMap (fun c => (tryChunk c).1)

/-- The string process_file writes: the pieces joined by a blank line plus
a trailing newline, written unconditionally. -/
def transcriptOut (cs : List ChunkTry) : String :=
  String.intercalate "\n\n" (pieces cs) ++ "\n"

/-- transcripts/{base}_{timestamp}.txt -/
def outPath (base : String) (ts : Nat) : String :=
  "transcripts/" ++ base ++ "_" ++ toString ts ++ ".txt"

/-- process_file: if wait_for_file_complete times out the item is abandoned
with no write; otherwise the output file is always written, even when
every chunk failed. -/
def processFileFs (base : String) (ts : Nat) (waitOk : Bool)
    (cs : List ChunkTry) (fs : Fs) : Fs :=
  if waitOk then Fs.write fs (outPath base ts) (transcriptOut cs) else fs

end Whisper

namespace Compare

/-!
Model of compare.py: one upload reused for two generation calls.  The
script has no delete_file call anywhere.
-/

/-- Environment choices for run_comparison: the upload handle (none when
upload_file raises), the PROCESSING polls, the FAILED state, and the two
generate_content outcomes (none = the call raised). -/
structure Oracle where
  upload : Option String
  polls : Nat
  failedState : Bool
  genSimple : Option String
  genDetailed : Option String
deriving DecidableEq

/-- transcripts/{stem}.simple.txt -/
def simplePath (stem : String) : String := "transcripts/" ++ stem ++ ".simple.txt"

/-- transcripts/{stem}.with_timestamps.txt -/
def timestampPath (stem : String) : String :=
  "transcripts/" ++ stem ++ ".with_timestamps.txt"

/-- compare.py generate_transcription: skip when the output exists; one
generate call; write only on success (an exception is logged and the write
skipped). -/
def generateTranscription (h : String) (res : Option String) (p : String)
    (fs : Fs) : List Event :=
  if (Fs.lookup fs p).isSome then []
  else
    match res with
    | some t => [Event.call (RemoteCall.generate h), Event.fsWrite p t]
    | none => [Event.call (RemoteCall.generate h)]

/-- compare.py run_comparison: upload once via upload_file_to_gemini (which
polls and returns None on FAILED or on an exception, stopping the run),
then reuse the handle for the simple and the timestamped prompt.  No path
of the script deletes the uploaded resource. -/
def runComparison (mediaPath stem : String) (o : Oracle) (fs : Fs) : List Event :=
  match o.upload with
  | none => [Event.call (RemoteCall.upload mediaPath)]
  | some h =>
    let pre := Event.call (RemoteCall.upload mediaPath)
      :: List.replicate o.polls (Event.call (RemoteCall.poll h))
    if o.failedState then pre
    else
      let e1 := generateTranscription h o.genSimple (simplePath stem) fs
      let fs1 := applyEvents fs e1
      let e2 := generateTranscription h o.genDetailed (timestampPath stem) fs1
      pre ++ e1 ++ e2

end Compare

/-! ### Basic lemmas about traces and the filesystem -/

theorem applyEvents_append (fs : Fs) (l1 l2 : List Event) :
    applyEvents fs (l1 ++ l2) = applyEvents (applyEvents fs l1) l2 := by
  induction l1 generalizing fs with
  | nil => rfl
  | cons e es ih => cases e <;> simp [applyEvents, ih]

theorem applyEvents_map_call (fs : Fs) (l : List RemoteCall) :
    applyEvents fs (l.map Event.call) = fs := by
  induction l with
  | nil => rfl
  | cons c cs ih => simp [applyEvents, ih]

theorem applyEvents_replicate_call (fs : Fs) (k : Nat) (c : RemoteCall) :
    applyEvents fs (List.replicate k (Event.call c)) = fs := by
  induction k with
  | zero => rfl
  | succ n ih => simp [List.replicate, applyEvents, ih]

theorem Fs.lookup_write_self (fs : Fs) (p c : String) :
    Fs.lookup (Fs.write fs p c) p = some c := by
  simp [Fs.lookup, Fs.write, List.find?]

theorem Fs.lookup_write_ne (fs : Fs) (p q c : String) (h : q ≠ p) :
    Fs.lookup (Fs.write fs p c) q = Fs.lookup fs q := by
  have hb : (p == q) = false := by
    simp [beq_eq_false_iff_ne]
    exact fun hpq => h hpq.symm
  simp [Fs.lookup, Fs.write, List.find?, hb]

theorem transcriptPath_ne_summaryPath (s : String) :
    Meeting.transcriptPath s ≠ Meeting.summaryPath s := by
  intro h
  have hl := congrArg String.length h
  have h1 : ("transcripts/" : String).length = 12 := rfl
  have h2 : ("_transcript.txt" : String).length = 15 := rfl
  have h3 : ("_summary.txt" : String).length = 12 := rfl
  simp [Meeting.transcriptPath, Meeting.summaryPath, String.length_append,
    h1, h2, h3] at hl

/-! ### Structure of one meeting.py item -/

namespace Meeting

/-- The chunk results of one item whose probed duration is d. -/
def rsOf (item : MediaItem) (o : ItemOracle) (d : Nat) :
    List (Option String × List RemoteCall) :=
  chunkResults o.chunk 0 (chunkPathsOf item d o.splitOk)

/-- The joined transcript of a result list. -/
def fullOf (rs : List (Option String × List RemoteCall)) : String :=
  String.intercalate "\n\n" (partsOf rs)

theorem transcribeChunk_fst (p : String) (o : ChunkOracle) :
    (transcribeChunk p o).1 = chunkText o := by
  rcases o with ⟨up, polls, fl, gen⟩
  cases up <;> cases fl <;> cases gen <;> simp [transcribeChunk, chunkText]

theorem processItemEvents_skip (item : MediaItem) (o : ItemOracle) (fs : Fs)
    (h : (Fs.lookup fs (transcriptPath item.stem)).isSome) :
    processItemEvents item o fs = [] := by
  simp [processItemEvents, h]

theorem processItemEvents_probe_none (item : MediaItem) (o : ItemOracle) (fs : Fs)
    (h : item.probe = none) :
    processItemEvents item o fs = [] := by
  unfold processItemEvents
  cases hs : (Fs.lookup fs (transcriptPath item.stem)).isSome <;> simp [h]

theorem processItemEvents_parts_nil (item : MediaItem) (o : ItemOracle) (fs : Fs)
    (d : Nat) (hskip : Fs.lookup fs (transcriptPath item.stem) = none)
    (hprobe : item.probe = some d) (hparts : partsOf (rsOf item o d) = []) :
    processItemEvents item o fs = (((rsOf item o d).map Prod.snd).flatten).map Event.call := by
  simp [processItemEvents, hskip, hprobe, rsOf] at *
  simp [hparts]

theorem processItemEvents_parts_ne (item : MediaItem) (o : ItemOracle) (fs : Fs)
    (d : Nat) (hskip : Fs.lookup fs (transcriptPath item.stem) = none)
    (hprobe : item.probe = some d) (hparts : partsOf (rsOf item o d) ≠ []) :
    processItemEvents item o fs =
      ((((rsOf item o d).map Prod.snd).flatten).map Event.call) ++
        [Event.fsWrite (transcriptPath item.stem) (fullOf (rsOf item o d)),
         Event.call (RemoteCall.genSummary (summaryPrompt (fullOf (rsOf item o d)))),
         Event.fsWrite (summaryPath item.stem) (summaryText o.summary)] := by
  simp [processItemEvents, hskip, hprobe, rsOf] at *
  simp [hparts, summarizeTranscript, fullOf, rsOf]

theorem processItemFs_parts_nil (item : MediaItem) (o : ItemOracle) (fs : Fs)
    (d : Nat) (hskip : Fs.lookup fs (transcriptPath item.stem) = none)
    (hprobe : item.probe = some d) (hparts : partsOf (rsOf item o d) = []) :
    processItemFs item o fs = fs := by
  rw [processItemFs, processItemEvents_parts_nil item o fs d hskip hprobe hparts,
    applyEvents_map_call]

theorem processItemFs_parts_ne (item : MediaItem) (o : ItemOracle) (fs : Fs)
    (d : Nat) (hskip : Fs.lookup fs (transcriptPath item.stem) = none)
    (hprobe : item.probe = some d) (hparts : partsOf (rsOf item o d) ≠ []) :
    processItemFs item o fs =
      Fs.write (Fs.write fs (transcriptPath item.stem) (fullOf (rsOf item o d)))
        (summaryPath item.stem) (summaryText o.summary) := by
  rw [processItemFs, processItemEvents_parts_ne item o fs d hskip hprobe hparts,
    applyEvents_append, applyEvents_map_call]
  simp [applyEvents]

end Meeting

namespace Meeting

theorem partsOf_nil_of_all_falsy (co : Nat → ChunkOracle) (ps : List String) (i0 : Nat)
    (h : ∀ j, j < ps.length → truthy (chunkText (co (i0 + j))) = none) :
    partsOf (chunkResults co i0 ps) = [] := by
  induction ps generalizing i0 with
  | nil => rfl
  | cons p ps ih =>
    have hhead : truthy (chunkText (co i0)) = none := by
      have := h 0 (by simp)
      simpa using this
    have htail : ∀ j, j < ps.length → truthy (chunkText (co (i0 + 1 + j))) = none := by
      intro j hj
      have := h (j + 1) (by simpa using Nat.succ_lt_succ hj)
      simpa [Nat.add_assoc, Nat.add_comm 1 j] using this
    simp [chunkResults, partsOf, List.filterMap_cons, transcribeChunk_fst, hhead]
    simpa [partsOf] using ih (i0 + 1) htail

theorem partsOf_eq_successTexts (rs : List (Option String × List RemoteCall))
    (h : ∀ t ∈ successTexts rs, t ≠ "") :
    partsOf rs = successTexts rs := by
  induction rs with
  | nil => rfl
  | cons r rs ih =>
    rcases hr : r.1 with _ | t
    · simp [partsOf, successTexts, List.filterMap_cons, hr, truthy] at *
      exact ih h
    · have ht : t ≠ "" := by
        apply h
        simp [successTexts, List.filterMap_cons, hr]
      have htail : ∀ u ∈ successTexts rs, u ≠ "" := by
        intro u hu
        apply h
        simp [successTexts, List.filterMap_cons, hr]
        right
        simpa [successTexts] using hu
      simp [partsOf, successTexts, List.filterMap_cons, hr, truthy, ht]
      simpa [partsOf, successTexts] using ih htail

end Meeting

/-! ### Claim C1 -/

/-- Claim C1: for every media item whose primary output transcript file
already exists before processing begins, the pipeline performs zero remote
calls (the event trace of the item is empty, so there is no upload, poll,
generate or delete) and leaves the filesystem, in particular the existing
artifact, unchanged; the existence check is the first thing done, before
any network activity.  This holds both for meeting.py main and for
gemini.py transcribe_file. -/
theorem claim1_existing_output_skips_all_remote_work :
    (∀ (item : Meeting.MediaItem) (o : Meeting.ItemOracle) (fs : Fs),
        (Fs.lookup fs (Meeting.transcriptPath item.stem)).isSome →
        Meeting.processItemEvents item o fs = [] ∧ Meeting.processItemFs item o fs = fs)
  ∧ (∀ (it : Gemini.GItem) (o : Gemini.Oracle) (fs : Fs),
        (Fs.lookup fs (Gemini.outPath it.stem)).isSome →
        Gemini.transcribeFile it o fs = ([], false)) := by
  constructor
  · intro item o fs h
    have he := Meeting.processItemEvents_skip item o fs h
    exact ⟨he, by rw [Meeting.processItemFs, he]; rfl⟩
  · intro it o fs h
    simp [Gemini.transcribeFile, h]

/-- Witness for C1 at a concrete item whose transcript file exists. -/
theorem claim1_witness :
    (Meeting.processItemEvents ⟨"audio_in/x.mp4", "x", some 1000⟩
        ⟨true, fun _ => ⟨some "files/h", 0, false, Meeting.GenOutcome.ok "T"⟩,
          Meeting.GenOutcome.ok "S"⟩
        [(Meeting.transcriptPath "x", "old")] = []
      ∧ Meeting.processItemFs ⟨"audio_in/x.mp4", "x", some 1000⟩
        ⟨true, fun _ => ⟨some "files/h", 0, false, Meeting.GenOutcome.ok "T"⟩,
          Meeting.GenOutcome.ok "S"⟩
        [(Meeting.transcriptPath "x", "old")] = [(Meeting.transcriptPath "x", "old")])
  ∧ Gemini.transcribeFile ⟨"audio_in/y.mp4", "y", none⟩
      ⟨Gemini.UpOutcome.ok "files/g", 0, false, Gemini.GOutcome.ok "U"⟩
      [(Gemini.outPath "y", "old2")] = ([], false) := by
  exact ⟨claim1_existing_output_skips_all_remote_work.1 _ _ _ (by decide),
    claim1_existing_output_skips_all_remote_work.2 _ _ _ (by decide)⟩

/-! ### Claim C2 -/

/-- Counterexample to C2: in transcribe.py (process_file), when every
per-chunk transcription attempt fails the output transcript file IS
written: here the single chunk fails both attempts fatally and the file
transcripts/a_0.txt is created, containing a single newline. -/
theorem claim2_cex_whisper_writes_file_on_total_failure :
    Fs.lookup (Whisper.processFileFs "a" 0 true [⟨Whisper.Att.fatal, Whisper.Att.fatal⟩] [])
      (Whisper.outPath "a" 0) = some "\n" := by decide

/-- Claim C2 (amended): in the chunked meeting.py pipeline, when every
chunk yields no (truthy) text, no file is written for the item (the
filesystem is unchanged) and the driver proceeds to the next item; the
transcribe.py variant instead writes its output file unconditionally, so
on total failure it writes a file containing only a newline. -/
theorem claim2_amended_total_failure_behavior :
    (∀ (item : Meeting.MediaItem) (o : Meeting.ItemOracle) (fs : Fs) (d : Nat)
        (rest : List (Meeting.MediaItem × Meeting.ItemOracle)),
        item.probe = some d →
        (∀ j, j < (Meeting.chunkPathsOf item d o.splitOk).length →
            Meeting.truthy (Meeting.chunkText (o.chunk j)) = none) →
        Meeting.processItemFs item o fs = fs
        ∧ (Meeting.runMain ((item, o) :: rest) fs).1 = (Meeting.runMain rest fs).1)
  ∧ (∀ (base : String) (ts : Nat) (cs : List Whisper.ChunkTry) (fs : Fs),
        (∀ c ∈ cs, (Whisper.tryChunk c).1 = none) →
        Whisper.processFileFs base ts true cs fs
          = Fs.write fs (Whisper.outPath base ts) "\n") := by
  constructor
  · intro item o fs d rest hprobe hall
    have hfs : Meeting.processItemFs item o fs = fs := by
      cases hs : Fs.lookup fs (Meeting.transcriptPath item.stem) with
      | some v =>
        rw [Meeting.processItemFs,
          Meeting.processItemEvents_skip item o fs (by simp [hs])]
        rfl
      | none =>
        have hparts : Meeting.partsOf (Meeting.rsOf item o d) = [] := by
          apply Meeting.partsOf_nil_of_all_falsy
          intro j hj
          simpa using hall j hj
        exact Meeting.processItemFs_parts_nil item o fs d hs hprobe hparts
    refine ⟨hfs, ?_⟩
    simp only [Meeting.runMain]
    rw [← Meeting.processItemFs, hfs]
  · intro base ts cs fs hall
    have hpieces : Whisper.pieces cs = [] := by
      simp [Whisper.pieces, List.filterMap_eq_nil_iff]
      exact hall
    have hout : Whisper.transcriptOut cs = "\n" := by
      rw [Whisper.transcriptOut, hpieces]
      rfl
    rw [Whisper.processFileFs, hout]
    rfl

/-- Witness for the amended C2 at concrete inputs: a meeting.py item whose
single chunk ends in the FAILED remote state, and a transcribe.py run with
one doubly-failing chunk. -/
theorem claim2_witness :
    (Meeting.processItemFs ⟨"audio_in/w.mp4", "w", some 1000⟩
        ⟨true, fun _ => ⟨some "files/h", 0, true, Meeting.GenOutcome.err⟩,
          Meeting.GenOutcome.ok "S"⟩ [] = []
      ∧ (Meeting.runMain [(⟨"audio_in/w.mp4", "w", some 1000⟩,
          ⟨true, fun _ => ⟨some "files/h", 0, true, Meeting.GenOutcome.err⟩,
            Meeting.GenOutcome.ok "S"⟩)] []).1 = (Meeting.runMain [] []).1)
  ∧ Whisper.processFileFs "w" 7 true [⟨Whisper.Att.fatal, Whisper.Att.fatal⟩] []
      = Fs.write [] (Whisper.outPath "w" 7) "\n" := by
  exact ⟨claim2_amended_total_failure_behavior.1 _ _ _ 1000 _ rfl (by decide),
    claim2_amended_total_failure_behavior.2 _ _ _ _ (by decide)⟩

/-! ### Claim C3 -/

/-- The failing input for claim C3 in meeting.py: two items; the first
item's only chunk raises ResourceExhausted (quota) inside generate_content;
the second item transcribes normally. -/
def quotaRunInput : List (Meeting.MediaItem × Meeting.ItemOracle) :=
  [(⟨"audio_in/a.mp4", "a", some 1000⟩,
    ⟨true, fun _ => ⟨some "files/h1", 0, false, Meeting.GenOutcome.quota⟩,
      Meeting.GenOutcome.ok "S"⟩),
   (⟨"audio_in/b.mp4", "b", some 1000⟩,
    ⟨true, fun _ => ⟨some "files/h2", 0, false, Meeting.GenOutcome.ok "B text"⟩,
      Meeting.GenOutcome.ok "S2"⟩)]

/-- The contrasting gemini.py run: item c completes, item a hits quota,
item b follows. -/
def gQuotaRunInput : List (Gemini.GItem × Gemini.Oracle) :=
  [(⟨"audio_in/c.mp4", "c", some 100⟩,
    ⟨Gemini.UpOutcome.ok "files/hc", 0, false, Gemini.GOutcome.ok "C text"⟩),
   (⟨"audio_in/a.mp4", "a", some 100⟩,
    ⟨Gemini.UpOutcome.ok "files/ha", 0, false, Gemini.GOutcome.quota⟩),
   (⟨"audio_in/b.mp4", "b", some 100⟩,
    ⟨Gemini.UpOutcome.ok "files/hb", 0, false, Gemini.GOutcome.ok "B text"⟩)]

/-- Claim C3 describes the intended behavior (gemini.py implements it, and
meeting.py has a dedicated top-level ResourceExhausted handler showing the
same intent), but meeting.py does not terminate the run: the broad
except-Exception handler inside transcribe_chunk swallows ResourceExhausted
exactly like an ordinary chunk failure, so the run continues.  Evaluating
the model at the failing input: after item a hits quota, item b is still
fully processed (its generate call happens and its transcript is written);
by contrast, in gemini.py the quota on item a terminates the workflow (the
completed item c keeps its correct output on disk and item b is never
uploaded nor written). -/
theorem claim3_quota_swallowed_run_continues :
    (Fs.lookup (Meeting.runMain quotaRunInput []).1 (Meeting.transcriptPath "b")
        = some "B text"
      ∧ Fs.lookup (Meeting.runMain quotaRunInput []).1 (Meeting.transcriptPath "a") = none
      ∧ RemoteCall.generate "files/h2" ∈ callsIn (Meeting.runMain quotaRunInput []).2)
  ∧ (Fs.lookup (Gemini.runWorkflow gQuotaRunInput []).1 (Gemini.outPath "c")
        = some "C text"
      ∧ Fs.lookup (Gemini.runWorkflow gQuotaRunInput []).1 (Gemini.outPath "b") = none
      ∧ RemoteCall.upload "audio_in/b.mp4" ∉ callsIn (Gemini.runWorkflow gQuotaRunInput []).2) := by
  decide

/-! ### Claim C4 -/

theorem filter_isDelete_replicate_poll (k : Nat) (h : String) :
    (List.replicate k (RemoteCall.poll h)).filter isDelete = [] := by
  induction k with
  | zero => rfl
  | succ n ih => simp [List.replicate_succ, List.filter_cons, isDelete, ih]

theorem callsIn_replicate_call (k : Nat) (c : RemoteCall) :
    callsIn (List.replicate k (Event.call c)) = List.replicate k c := by
  induction k with
  | zero => rfl
  | succ n ih => simp [List.replicate_succ, callsIn, List.filterMap_cons] at *

/-- Counterexample to C4: compare.py uploads the media file once
(successfully) and no execution path ever deletes the uploaded remote
resource: its trace holds one upload, two generate calls on the handle,
and zero delete calls. -/
theorem claim4_cex_compare_upload_never_deleted :
    (callsIn (Compare.runComparison "audio_in/v.mp4" "v"
        ⟨some "files/h1", 2, false, some "T1", some "T2"⟩ [])).filter isUpload
      = [RemoteCall.upload "audio_in/v.mp4"]
  ∧ (callsIn (Compare.runComparison "audio_in/v.mp4" "v"
        ⟨some "files/h1", 2, false, some "T1", some "T2"⟩ [])).filter isDelete = []
  ∧ (callsIn (Compare.runComparison "audio_in/v.mp4" "v"
        ⟨some "files/h1", 2, false, some "T1", some "T2"⟩ [])).count
        (RemoteCall.generate "files/h1") = 2 := by
  decide

/-- Claim C4 (amended): in the transcription pipelines (meeting.py
transcribe_chunk and gemini.py transcribe_file) every successfully
uploaded remote resource is deleted exactly once, whatever the outcome
(success, FAILED state, generation error or quota), and nothing is deleted
when the upload itself failed; compare.py, however, reuses one successful
upload for two generation calls and never deletes it. -/
theorem claim4_amended_delete_exactly_once :
    (∀ (p : String) (o : Meeting.ChunkOracle) (h : String), o.upload = some h →
        ((Meeting.transcribeChunk p o).2.filter isDelete) = [RemoteCall.delete h])
  ∧ (∀ (p : String) (o : Meeting.ChunkOracle), o.upload = none →
        ((Meeting.transcribeChunk p o).2.filter isDelete) = [])
  ∧ (∀ (it : Gemini.GItem) (o : Gemini.Oracle) (fs : Fs) (h : String),
        Fs.lookup fs (Gemini.outPath it.stem) = none →
        o.upload = Gemini.UpOutcome.ok h →
        (callsIn (Gemini.transcribeFile it o fs).1).filter isDelete
          = [RemoteCall.delete h]) := by
  refine ⟨?_, ?_, ?_⟩
  · intro p o h hup
    rcases o with ⟨up, polls, fl, gen⟩
    cases hup
    cases fl <;> cases gen <;>
      simp [Meeting.transcribeChunk, List.filter_append, List.filter_cons,
        isDelete, filter_isDelete_replicate_poll]
  · intro p o hup
    rcases o with ⟨up, polls, fl, gen⟩
    cases hup
    simp [Meeting.transcribeChunk, List.filter_cons, isDelete]
  · intro it o fs h hskip hup
    rcases o with ⟨up, polls, fl, gen⟩
    cases hup
    cases fl <;> cases gen <;>
      simp [Gemini.transcribeFile, hskip, callsIn, List.filterMap_append,
        List.filterMap_cons, List.filter_append, List.filter_cons, isDelete]

/-- Witness for the amended C4: a successfully uploaded meeting.py chunk
(success path), a failed upload, and a gemini.py item that ends in the
remote FAILED state. -/
theorem claim4_witness :
    ((Meeting.transcribeChunk "temp_chunks/x_chunk1.mp3"
        ⟨some "files/h", 1, false, Meeting.GenOutcome.ok "T"⟩).2.filter isDelete
      = [RemoteCall.delete "files/h"])
  ∧ ((Meeting.transcribeChunk "audio_in/z.mp4"
        ⟨none, 0, false, Meeting.GenOutcome.err⟩).2.filter isDelete = [])
  ∧ ((callsIn (Gemini.transcribeFile ⟨"audio_in/y.mp4", "y", some 50⟩
        ⟨Gemini.UpOutcome.ok "files/g", 1, true, Gemini.GOutcome.ok "U"⟩ []).1).filter
        isDelete = [RemoteCall.delete "files/g"]) := by
  exact ⟨claim4_amended_delete_exactly_once.1 _ _ _ rfl,
    claim4_amended_delete_exactly_once.2.1 _ _ rfl,
    claim4_amended_delete_exactly_once.2.2 _ _ _ _ (by decide) rfl⟩

/-! ### Claim C5 -/

namespace Meeting

theorem numChunks_facts (d c : Nat) (hc : 0 < c) (hd : c < d) :
    d ≤ numChunks d c * c ∧ (numChunks d c - 1) * c < d ∧ 2 ≤ numChunks d c := by
  have hdm := Nat.div_add_mod (d + c - 1) c
  have hml : (d + c - 1) % c < c := Nat.mod_lt _ hc
  rw [numChunks]
  obtain ⟨m, hm⟩ : ∃ m, c * ((d + c - 1) / c) = m := ⟨_, rfl⟩
  rw [hm] at hdm
  have hdle : d ≤ m := by omega
  have hmlt : m - c < d := by omega
  have h2 : 2 ≤ (d + c - 1) / c := by
    by_contra hle
    have h1 : (d + c - 1) / c ≤ 1 := by omega
    have : c * ((d + c - 1) / c) ≤ c * 1 := Nat.mul_le_mul_left c h1
    rw [hm] at this
    omega
  refine ⟨?_, ?_, h2⟩
  · rw [Nat.mul_comm, hm]
    exact hdle
  · rw [Nat.sub_mul, Nat.one_mul, Nat.mul_comm, hm]
    omega

theorem chunkIntervals_entry (d c : Nat) (i : Nat) (hi : i < numChunks d c) :
    (chunkIntervals d c)[i]? = some (i * c, min ((i + 1) * c) d) := by
  simp [chunkIntervals, List.getElem?_range hi]

end Meeting

/-- Claim C5: the split decision of meeting.py.  When the probed duration
is at most the chunk threshold, the chunk list is exactly the original
file (no physical segmentation).  When the duration exceeds the threshold,
split_audio produces ceil(duration / chunk-length) chunk files, chunk i
covering [i*c, min((i+1)*c, d)); these ranges tile the source in index
order: each non-last chunk ends exactly where its successor starts and has
length exactly c, the first starts at 0, the last ends at the full
duration d, and only the last chunk is (possibly) shorter: its length is
in (0, c]. -/
theorem claim5_split_decision :
    (∀ (item : Meeting.MediaItem) (d : Nat) (ok : Bool),
        d ≤ Meeting.chunkMs → Meeting.chunkPathsOf item d ok = [item.path])
  ∧ (∀ (stem : String) (c d : Nat),
        (Meeting.splitAudio stem c d true).length = Meeting.numChunks d c)
  ∧ (∀ (d c : Nat), 0 < c → c < d →
        (Meeting.chunkIntervals d c).length = Meeting.numChunks d c
      ∧ 2 ≤ Meeting.numChunks d c
      ∧ (∀ i, i < Meeting.numChunks d c →
            (Meeting.chunkIntervals d c)[i]? = some (i * c, min ((i + 1) * c) d))
      ∧ (∀ i, i + 1 < Meeting.numChunks d c → min ((i + 1) * c) d = (i + 1) * c)
      ∧ min (Meeting.numChunks d c * c) d = d
      ∧ (∀ i, i + 1 < Meeting.numChunks d c → min ((i + 1) * c) d - i * c = c)
      ∧ 0 < d - (Meeting.numChunks d c - 1) * c
      ∧ d - (Meeting.numChunks d c - 1) * c ≤ c) := by
  refine ⟨?_, ?_, ?_⟩
  · intro item d ok hle
    rw [Meeting.chunkPathsOf, if_neg]
    omega
  · intro stem c d
    simp [Meeting.splitAudio]
  · intro d c hc hd
    obtain ⟨hcov, hlast, h2⟩ := Meeting.numChunks_facts d c hc hd
    have hmid : ∀ i, i + 1 < Meeting.numChunks d c → (i + 1) * c < d := by
      intro i hi
      have hle : i + 1 ≤ Meeting.numChunks d c - 1 := by omega
      calc (i + 1) * c ≤ (Meeting.numChunks d c - 1) * c := Nat.mul_le_mul_right c hle
        _ < d := hlast
    refine ⟨by simp [Meeting.chunkIntervals], h2, Meeting.chunkIntervals_entry d c,
      ?_, ?_, ?_, ?_, ?_⟩
    · intro i hi
      exact Nat.min_eq_left (Nat.le_of_lt (hmid i hi))
    · exact Nat.min_eq_right hcov
    · intro i hi
      rw [Nat.min_eq_left (Nat.le_of_lt (hmid i hi)), Nat.succ_mul]
      omega
    · omega
    · have : (Meeting.numChunks d c - 1) * c + c = Meeting.numChunks d c * c := by
        rw [Nat.sub_mul, Nat.one_mul]
        have hcle : c ≤ Meeting.numChunks d c * c := by
          calc c = 1 * c := (Nat.one_mul c).symm
            _ ≤ Meeting.numChunks d c * c := Nat.mul_le_mul_right c (by omega)
        omega
      omega

/-- Witness for C5 at duration 2500 ms and chunk length 1000 ms (three
chunks: [0,1000), [1000,2000), [2000,2500)), and a short item of 1000 ms
against the 1800000 ms threshold. -/
theorem claim5_witness :
    Meeting.chunkPathsOf ⟨"audio_in/s.mp4", "s", some 1000⟩ 1000 true = ["audio_in/s.mp4"]
  ∧ (Meeting.splitAudio "t" 1000 2500 true).length = Meeting.numChunks 2500 1000
  ∧ (Meeting.chunkIntervals 2500 1000).length = Meeting.numChunks 2500 1000
  ∧ 2 ≤ Meeting.numChunks 2500 1000
  ∧ (Meeting.chunkIntervals 2500 1000)[0]? = some (0 * 1000, min ((0 + 1) * 1000) 2500)
  ∧ min ((0 + 1) * 1000) 2500 = (0 + 1) * 1000
  ∧ min (Meeting.numChunks 2500 1000 * 1000) 2500 = 2500
  ∧ min ((0 + 1) * 1000) 2500 - 0 * 1000 = 1000
  ∧ 0 < 2500 - (Meeting.numChunks 2500 1000 - 1) * 1000
  ∧ 2500 - (Meeting.numChunks 2500 1000 - 1) * 1000 ≤ 1000 := by
  obtain ⟨h1, h2, h3⟩ := claim5_split_decision
  obtain ⟨g1, g2, g3, g4, g5, g6, g7, g8⟩ := h3 2500 1000 (by decide) (by decide)
  exact ⟨h1 _ 1000 true (by decide), h2 "t" 1000 2500, g1, g2,
    g3 0 (by decide), g4 0 (by decide), g5, g6 0 (by decide), g7, g8⟩

/-! ### Claim C6 -/

/-- The spec example: talk.mp4, 40 minutes (2400000 ms) against the
30-minute threshold, both chunks transcribing successfully. -/
def talkItem : Meeting.MediaItem := ⟨"audio_in/talk.mp4", "talk", some 2400000⟩

/-- The oracle of the spec example: chunk 1 and chunk 2 both succeed. -/
def talkOracle : Meeting.ItemOracle :=
  ⟨true,
   fun i => if i = 0 then ⟨some "files/t1", 1, false, Meeting.GenOutcome.ok "chunk one text"⟩
            else ⟨some "files/t2", 0, false, Meeting.GenOutcome.ok "chunk two text"⟩,
   Meeting.GenOutcome.ok "summary text"⟩

/-- Claim C6: the persisted transcript equals the successful chunk
transcripts joined in chunk-index order with a blank-line separator,
failed chunks silently omitted (no placeholder inserted); and on the spec
example (two successful chunks) the written file holds both texts joined
by a blank line in chunk order.  (The code drops a chunk by Python
truthiness, so the statement assumes successful texts are nonempty, which
makes the truthy parts exactly the successes.) -/
theorem claim6_join_in_order :
    (∀ (item : Meeting.MediaItem) (o : Meeting.ItemOracle) (fs : Fs) (d : Nat),
        Fs.lookup fs (Meeting.transcriptPath item.stem) = none →
        item.probe = some d →
        (∀ t ∈ Meeting.successTexts (Meeting.rsOf item o d), t ≠ "") →
        Meeting.successTexts (Meeting.rsOf item o d) ≠ [] →
        Fs.lookup (Meeting.processItemFs item o fs) (Meeting.transcriptPath item.stem)
          = some (String.intercalate "\n\n" (Meeting.successTexts (Meeting.rsOf item o d))))
  ∧ Fs.lookup (Meeting.processItemFs talkItem talkOracle [])
      (Meeting.transcriptPath "talk")
      = some ("chunk one text" ++ "\n\n" ++ "chunk two text") := by
  constructor
  · intro item o fs d hskip hprobe hne hnil
    have hp : Meeting.partsOf (Meeting.rsOf item o d)
        = Meeting.successTexts (Meeting.rsOf item o d) :=
      Meeting.partsOf_eq_successTexts _ hne
    have hparts : Meeting.partsOf (Meeting.rsOf item o d) ≠ [] := by
      rw [hp]; exact hnil
    rw [Meeting.processItemFs_parts_ne item o fs d hskip hprobe hparts,
      Fs.lookup_write_ne _ _ _ _ (transcriptPath_ne_summaryPath item.stem),
      Fs.lookup_write_self, Meeting.fullOf, hp]
  · decide

/-- Witness for C6 at the spec example inputs. -/
theorem claim6_witness :
    Fs.lookup (Meeting.processItemFs talkItem talkOracle [])
      (Meeting.transcriptPath "talk")
      = some (String.intercalate "\n\n"
          (Meeting.successTexts (Meeting.rsOf talkItem talkOracle 2400000))) := by
  exact claim6_join_in_order.1 talkItem talkOracle [] 2400000 (by decide) rfl
    (by decide) (by decide)

/-! ### Claim C7 -/

/-- Counterexample to C7: in meeting.py, when ffprobe cannot determine the
duration the item is not processed at all: even with an environment in
which every remote step would succeed, the trace is empty (no remote call)
and no transcript is written — the item is skipped, not \"processed to
completion\". -/
theorem claim7_cex_meeting_skips_on_unknown_duration :
    Meeting.processItemEvents ⟨"audio_in/u.mp4", "u", none⟩
      ⟨true, fun _ => ⟨some "files/hu", 0, false, Meeting.GenOutcome.ok "text"⟩,
        Meeting.GenOutcome.ok "S"⟩ [] = []
  ∧ Fs.lookup (Meeting.processItemFs ⟨"audio_in/u.mp4", "u", none⟩
      ⟨true, fun _ => ⟨some "files/hu", 0, false, Meeting.GenOutcome.ok "text"⟩,
        Meeting.GenOutcome.ok "S"⟩ []) (Meeting.transcriptPath "u") = none := by
  decide

/-- Claim C7 (amended): gemini.py implements the fallback: when the probe
fails (or yields the falsy duration 0) the smart wait falls back to the
fixed 360-second wait, and the item is still processed to completion (the
probe result never aborts an item: with a successful remote transcription
the output file is written and no exit is raised).  meeting.py instead
skips the item entirely when the probe fails. -/
theorem claim7_amended_probe_fallback :
    Gemini.initialWait none = 360
  ∧ (∀ d : Nat, Gemini.initialWait (some d) = if d = 0 then 360 else max 30 (d / 10))
  ∧ (∀ (it : Gemini.GItem) (o : Gemini.Oracle) (fs : Fs) (h t : String),
        Fs.lookup fs (Gemini.outPath it.stem) = none →
        o.upload = Gemini.UpOutcome.ok h → o.failedState = false →
        o.gen = Gemini.GOutcome.ok t →
        Fs.lookup (applyEvents fs (Gemini.transcribeFile it o fs).1)
            (Gemini.outPath it.stem) = some t
        ∧ (Gemini.transcribeFile it o fs).2 = false)
  ∧ (∀ (item : Meeting.MediaItem) (o : Meeting.ItemOracle) (fs : Fs),
        item.probe = none → Meeting.processItemEvents item o fs = []) := by
  refine ⟨rfl, fun d => rfl, ?_, ?_⟩
  · intro it o fs h t hskip hup hfl hgen
    rcases o with ⟨up, polls, fl, gen⟩
    simp only at hup hfl hgen
    subst hup
    subst hfl
    subst hgen
    constructor
    · show Fs.lookup (applyEvents fs (Gemini.transcribeFile it
        ⟨Gemini.UpOutcome.ok h, polls, false, Gemini.GOutcome.ok t⟩ fs).1) _ = _
      simp only [Gemini.transcribeFile, hskip, Option.isSome_none, Bool.false_eq_true,
        if_false, if_neg, Bool.not_eq_true]
      simp [hskip, applyEvents, applyEvents_append, applyEvents_replicate_call,
        Fs.lookup_write_self]
    · simp [Gemini.transcribeFile, hskip]
  · intro item o fs hprobe
    exact Meeting.processItemEvents_probe_none item o fs hprobe

/-- Witness for the amended C7: an item of unknown duration processed to
completion by gemini.py, and one skipped by meeting.py. -/
theorem claim7_witness :
    Fs.lookup (applyEvents [] (Gemini.transcribeFile ⟨"audio_in/n.mp4", "n", none⟩
        ⟨Gemini.UpOutcome.ok "files/hn", 2, false, Gemini.GOutcome.ok "N text"⟩ []).1)
      (Gemini.outPath "n") = some "N text"
  ∧ (Gemini.transcribeFile ⟨"audio_in/n.mp4", "n", none⟩
      ⟨Gemini.UpOutcome.ok "files/hn", 2, false, Gemini.GOutcome.ok "N text"⟩ []).2 = false
  ∧ Meeting.processItemEvents ⟨"audio_in/m.mp4", "m", none⟩
      ⟨true, fun _ => ⟨none, 0, false, Meeting.GenOutcome.err⟩,
        Meeting.GenOutcome.err⟩ [] = [] := by
  obtain ⟨-, -, h3, h4⟩ := claim7_amended_probe_fallback
  obtain ⟨a, b⟩ := h3 ⟨"audio_in/n.mp4", "n", none⟩
    ⟨Gemini.UpOutcome.ok "files/hn", 2, false, Gemini.GOutcome.ok "N text"⟩ []
    "files/hn" "N text" (by decide) rfl rfl rfl
  exact ⟨a, b, h4 _ _ _ rfl⟩

/-! ### Claims C8 and C10: the summary call in the item trace -/

theorem filter_isGenSummary_replicate_poll (k : Nat) (h : String) :
    (List.replicate k (RemoteCall.poll h)).filter isGenSummaryCall = [] := by
  induction k with
  | zero => rfl
  | succ n ih => simp [List.replicate_succ, List.filter_cons, isGenSummaryCall, ih]

theorem genSummary_filter_transcribeChunk (p : String) (o : Meeting.ChunkOracle) :
    (Meeting.transcribeChunk p o).2.filter isGenSummaryCall = [] := by
  rcases o with ⟨up, polls, fl, gen⟩
  cases up <;> cases fl <;> cases gen <;>
    simp [Meeting.transcribeChunk, List.filter_append, List.filter_cons,
      isGenSummaryCall, filter_isGenSummary_replicate_poll]

theorem genSummary_filter_chunkResults (co : Nat → Meeting.ChunkOracle)
    (i0 : Nat) (ps : List String) :
    ((((Meeting.chunkResults co i0 ps).map Prod.snd).flatten).filter
      isGenSummaryCall) = [] := by
  induction ps generalizing i0 with
  | nil => rfl
  | cons p ps ih =>
    simp only [Meeting.chunkResults, List.map_cons, List.flatten_cons,
      List.filter_append, genSummary_filter_transcribeChunk, List.nil_append]
    exact ih (i0 + 1)

theorem callsIn_map_call (l : List RemoteCall) :
    callsIn (l.map Event.call) = l := by
  induction l with
  | nil => rfl
  | cons c cs ih => simp [callsIn, List.filterMap_cons] at *
                    exact ih

theorem genSummary_not_mem_chunk_calls (co : Nat → Meeting.ChunkOracle)
    (i0 : Nat) (ps : List String) (c : String) :
    Event.call (RemoteCall.genSummary c) ∉
      ((((Meeting.chunkResults co i0 ps).map Prod.snd).flatten).map Event.call) := by
  intro hmem
  rw [List.mem_map] at hmem
  obtain ⟨a, ha, heq⟩ := hmem
  have ha' : a = RemoteCall.genSummary c := by
    cases heq
    rfl
  subst ha'
  have : RemoteCall.genSummary c ∈
      (((Meeting.chunkResults co i0 ps).map Prod.snd).flatten).filter isGenSummaryCall := by
    rw [List.mem_filter]
    exact ⟨ha, rfl⟩
  rw [genSummary_filter_chunkResults] at this
  exact absurd this (List.not_mem_nil _)

/-- Claim C8: summarize_transcript issues exactly one remote generation
call, on the fixed instructional template applied to the full transcript,
with no retry; any failure (ordinary exception or quota) yields the
placeholder string, which is persisted to the sibling summary path, and
the item is not aborted: the already computed transcript is persisted
regardless.  Within a whole item trace the summary call occurs exactly
once (the chunk transcriptions contribute none). -/
theorem claim8_summarization_single_call_placeholder :
    (∀ (transcript : String) (g : Meeting.GenOutcome),
        (Meeting.summarizeTranscript transcript g).2
          = [RemoteCall.genSummary (Meeting.summaryPrompt transcript)])
  ∧ Meeting.summaryText Meeting.GenOutcome.err = "Summary could not be generated."
  ∧ Meeting.summaryText Meeting.GenOutcome.quota = "Summary could not be generated."
  ∧ (∀ (item : Meeting.MediaItem) (o : Meeting.ItemOracle) (fs : Fs) (d : Nat),
        Fs.lookup fs (Meeting.transcriptPath item.stem) = none →
        item.probe = some d →
        Meeting.partsOf (Meeting.rsOf item o d) ≠ [] →
        ((callsIn (Meeting.processItemEvents item o fs)).filter isGenSummaryCall
          = [RemoteCall.genSummary
              (Meeting.summaryPrompt (Meeting.fullOf (Meeting.rsOf item o d)))])
        ∧ ((o.summary = Meeting.GenOutcome.err ∨ o.summary = Meeting.GenOutcome.quota) →
            Fs.lookup (Meeting.processItemFs item o fs) (Meeting.summaryPath item.stem)
              = some "Summary could not be generated."
            ∧ Fs.lookup (Meeting.processItemFs item o fs) (Meeting.transcriptPath item.stem)
              = some (Meeting.fullOf (Meeting.rsOf item o d)))) := by
  refine ⟨fun transcript g => rfl, rfl, rfl, ?_⟩
  intro item o fs d hskip hprobe hparts
  constructor
  · rw [Meeting.processItemEvents_parts_ne item o fs d hskip hprobe hparts]
    rw [callsIn, List.filterMap_append]
    rw [← callsIn, ← callsIn, callsIn_map_call]
    have h2 : callsIn
        [Event.fsWrite (Meeting.transcriptPath item.stem)
            (Meeting.fullOf (Meeting.rsOf item o d)),
         Event.call (RemoteCall.genSummary
            (Meeting.summaryPrompt (Meeting.fullOf (Meeting.rsOf item o d)))),
         Event.fsWrite (Meeting.summaryPath item.stem) (Meeting.summaryText o.summary)]
        = [RemoteCall.genSummary
            (Meeting.summaryPrompt (Meeting.fullOf (Meeting.rsOf item o d)))] := rfl
    rw [h2, List.filter_append]
    simp only [Meeting.rsOf]
    rw [genSummary_filter_chunkResults]
    rfl
  · intro hfail
    rw [Meeting.processItemFs_parts_ne item o fs d hskip hprobe hparts]
    have hsum : Meeting.summaryText o.summary = "Summary could not be generated." := by
      rcases hfail with h | h <;> rw [h] <;> rfl
    rw [Fs.lookup_write_self, hsum,
      Fs.lookup_write_ne _ _ _ _ (transcriptPath_ne_summaryPath item.stem),
      Fs.lookup_write_self]
    exact ⟨rfl, rfl⟩

/-- Witness for C8: an item whose single chunk succeeds and whose summary
call raises. -/
theorem claim8_witness :
    (Meeting.summarizeTranscript "any transcript" Meeting.GenOutcome.err).2
      = [RemoteCall.genSummary (Meeting.summaryPrompt "any transcript")]
  ∧ ((callsIn (Meeting.processItemEvents ⟨"audio_in/p.mp4", "p", some 1000⟩
        ⟨true, fun _ => ⟨some "files/hp", 0, false, Meeting.GenOutcome.ok "P text"⟩,
          Meeting.GenOutcome.err⟩ [])).filter isGenSummaryCall
      = [RemoteCall.genSummary (Meeting.summaryPrompt
          (Meeting.fullOf (Meeting.rsOf ⟨"audio_in/p.mp4", "p", some 1000⟩
            ⟨true, fun _ => ⟨some "files/hp", 0, false, Meeting.GenOutcome.ok "P text"⟩,
              Meeting.GenOutcome.err⟩ 1000)))])
  ∧ Fs.lookup (Meeting.processItemFs ⟨"audio_in/p.mp4", "p", some 1000⟩
        ⟨true, fun _ => ⟨some "files/hp", 0, false, Meeting.GenOutcome.ok "P text"⟩,
          Meeting.GenOutcome.err⟩ []) (Meeting.summaryPath "p")
      = some "Summary could not be generated." := by
  obtain ⟨h1, -, -, h4⟩ := claim8_summarization_single_call_placeholder
  obtain ⟨ha, hb⟩ := h4 ⟨"audio_in/p.mp4", "p", some 1000⟩
    ⟨true, fun _ => ⟨some "files/hp", 0, false, Meeting.GenOutcome.ok "P text"⟩,
      Meeting.GenOutcome.err⟩ [] 1000 (by decide) rfl (by decide)
  exact ⟨h1 "any transcript" Meeting.GenOutcome.err, ha, (hb (Or.inl rfl)).1⟩

/-! ### Claim C9 -/

/-- Claim C9: in transcribe.py, a transient transport error
(LocalProtocolError) on a chunk triggers a retry of that chunk: the
attempt count is bounded by the fixed 2, a second attempt happens exactly
when the first raised the transient error and comes after the fixed
1-second delay, a first-attempt success never retries; when both attempts
fail transiently the chunk is given up (no text, two 1-second delays
recorded); and only that chunk is given up: each chunk contributes exactly
its own optional text to the pieces, so the loop continues with the
remaining chunks unaffected. -/
theorem claim9_retry_policy :
    (∀ c : Whisper.ChunkTry, (Whisper.tryChunk c).2.1 ≤ 2)
  ∧ (∀ a2 : Whisper.Att, (Whisper.tryChunk ⟨Whisper.Att.transient, a2⟩).2.1 = 2
      ∧ (Whisper.tryChunk ⟨Whisper.Att.transient, a2⟩).2.2.head? = some 1)
  ∧ (∀ (t : String) (a2 : Whisper.Att),
        (Whisper.tryChunk ⟨Whisper.Att.ok t, a2⟩).2.1 = 1)
  ∧ Whisper.tryChunk ⟨Whisper.Att.transient, Whisper.Att.transient⟩ = (none, 2, [1, 1])
  ∧ (∀ (c : Whisper.ChunkTry) (rest : List Whisper.ChunkTry),
        Whisper.pieces (c :: rest)
          = ((Whisper.tryChunk c).1).toList ++ Whisper.pieces rest) := by
  refine ⟨?_, ?_, ?_, rfl, ?_⟩
  · intro c
    rcases c with ⟨a1, a2⟩
    cases a1 <;> cases a2 <;> simp [Whisper.tryChunk]
  · intro a2
    cases a2 <;> simp [Whisper.tryChunk]
  · intro t a2
    cases a2 <;> simp [Whisper.tryChunk]
  · intro c rest
    rw [Whisper.pieces, List.filterMap_cons]
    cases h : (Whisper.tryChunk c).1 <;> simp [h, Whisper.pieces]

/-! ### Claim C10 -/

/-- Claim C10: in the chunked pipeline, whenever a summarization call
occurs in an item trace, the trace decomposes as a prefix followed
immediately by the write of the full transcript to the transcript path and
then the summarization call on that same full transcript: the transcript
file is on disk before the summary call is issued.  Moreover the persisted
transcript content is independent of the summarization outcome: changing
only the summary oracle never prevents, removes or modifies the transcript
file; only the sibling summary file depends on it. -/
theorem claim10_transcript_written_before_summary :
    (∀ (item : Meeting.MediaItem) (o : Meeting.ItemOracle) (fs : Fs) (c : String),
        Event.call (RemoteCall.genSummary c) ∈ Meeting.processItemEvents item o fs →
        ∃ pre post full,
          Meeting.processItemEvents item o fs
            = pre ++ Event.fsWrite (Meeting.transcriptPath item.stem) full
              :: Event.call (RemoteCall.genSummary (Meeting.summaryPrompt full)) :: post)
  ∧ (∀ (item : Meeting.MediaItem) (o : Meeting.ItemOracle) (g : Meeting.GenOutcome)
        (fs : Fs),
        Fs.lookup (Meeting.processItemFs item ⟨o.splitOk, o.chunk, g⟩ fs)
            (Meeting.transcriptPath item.stem)
          = Fs.lookup (Meeting.processItemFs item o fs)
              (Meeting.transcriptPath item.stem)) := by
  constructor
  · intro item o fs c hmem
    cases hs : Fs.lookup fs (Meeting.transcriptPath item.stem) with
    | some v =>
      rw [Meeting.processItemEvents_skip item o fs (by simp [hs])] at hmem
      exact absurd hmem (List.not_mem_nil _)
    | none =>
      cases hp : item.probe with
      | none =>
        rw [Meeting.processItemEvents_probe_none item o fs hp] at hmem
        exact absurd hmem (List.not_mem_nil _)
      | some d =>
        by_cases hparts : Meeting.partsOf (Meeting.rsOf item o d) = []
        · rw [Meeting.processItemEvents_parts_nil item o fs d hs hp hparts] at hmem
          simp only [Meeting.rsOf] at hmem
          exact absurd hmem (genSummary_not_mem_chunk_calls o.chunk 0 _ c)
        · refine ⟨(((Meeting.rsOf item o d).map Prod.snd).flatten).map Event.call,
            [Event.fsWrite (Meeting.summaryPath item.stem)
              (Meeting.summaryText o.summary)],
            Meeting.fullOf (Meeting.rsOf item o d), ?_⟩
          rw [Meeting.processItemEvents_parts_ne item o fs d hs hp hparts]
  · intro item o g fs
    cases hs : Fs.lookup fs (Meeting.transcriptPath item.stem) with
    | some v =>
      rw [Meeting.processItemFs, Meeting.processItemFs,
        Meeting.processItemEvents_skip item o fs (by simp [hs]),
        Meeting.processItemEvents_skip item ⟨o.splitOk, o.chunk, g⟩ fs (by simp [hs])]
    | none =>
      cases hp : item.probe with
      | none =>
        rw [Meeting.processItemFs, Meeting.processItemFs,
          Meeting.processItemEvents_probe_none item o fs hp,
          Meeting.processItemEvents_probe_none item ⟨o.splitOk, o.chunk, g⟩ fs hp]
      | some d =>
        have hrs : Meeting.rsOf item ⟨o.splitOk, o.chunk, g⟩ d = Meeting.rsOf item o d := rfl
        by_cases hparts : Meeting.partsOf (Meeting.rsOf item o d) = []
        · rw [Meeting.processItemFs_parts_nil item o fs d hs hp hparts,
            Meeting.processItemFs_parts_nil item ⟨o.splitOk, o.chunk, g⟩ fs d hs hp
              (by rw [hrs]; exact hparts)]
        · rw [Meeting.processItemFs_parts_ne item o fs d hs hp hparts,
            Meeting.processItemFs_parts_ne item ⟨o.splitOk, o.chunk, g⟩ fs d hs hp
              (by rw [hrs]; exact hparts)]
          rw [Fs.lookup_write_ne _ _ _ _ (transcriptPath_ne_summaryPath item.stem),
            Fs.lookup_write_ne _ _ _ _ (transcriptPath_ne_summaryPath item.stem),
            Fs.lookup_write_self, Fs.lookup_write_self, hrs]

/-- Witness for C10: the spec-example item, whose trace contains a summary
call, and the independence of its transcript from a failing summary. -/
theorem claim10_witness :
    (∃ pre post full,
        Meeting.processItemEvents talkItem talkOracle []
          = pre ++ Event.fsWrite (Meeting.transcriptPath "talk") full
            :: Event.call (RemoteCall.genSummary (Meeting.summaryPrompt full)) :: post)
  ∧ Fs.lookup (Meeting.processItemFs talkItem
        ⟨talkOracle.splitOk, talkOracle.chunk, Meeting.GenOutcome.err⟩ [])
      (Meeting.transcriptPath "talk")
      = Fs.lookup (Meeting.processItemFs talkItem talkOracle [])
          (Meeting.transcriptPath "talk") := by
  constructor
  · exact claim10_transcript_written_before_summary.1 talkItem talkOracle []
      (Meeting.summaryPrompt ("chunk one text" ++ "\n\n" ++ "chunk two text"))
      (by set_option maxRecDepth 100000 in decide)
  · exact claim10_transcript_written_before_summary.2 talkItem talkOracle
      Meeting.GenOutcome.err []
